import Mathlib

/-
Verification development for the BusVerifier background-job pipeline.

Shallow embedding of:
  * the ProcessingJob partial-update semantics of MemStorage.updateProcessingJob
    and the job writes issued by the HTTP stop endpoint (server/routes, server/storage);
  * the verification workflow processBusinessData (batch loop of size 10,
    per-item try/catch around the Google Places lookups, progress writes);
  * the Gemini retry wrapper analyzeBusinessData (3 attempts, exponential backoff);
  * the AI-prospecting workflow processAIProspecting (dedup index over normalized
    source company names, per-city search loop, per-city progress writes);
  * the template-prospecting progress writes of processProspecting;
  * the location-prospecting workflow processLocationProspecting;
  * the in-memory record store MemStorage (soft delete, filtered reads).

External effects (Google Places, Gemini, Math.random, Date.now) are supplied as
oracle parameters; each workflow is embedded as the list of storage operations
it performs, in program order.  Timestamps are modelled as a `now : Nat`
parameter.  Storage operations themselves never throw in this model
(infrastructure errors are out of scope), so the outer catch blocks of the
workflows are reachable exactly where the workflow body itself throws.
-/

namespace BusVer

/-- Status values of a ProcessingJob (shared/schema, server/routes). -/
inductive JobStatus where
  | pending
  | running
  | completed
  | failed
  | stopped
deriving DecidableEq

/-- Status values of a BusinessRecord (shared/schema). -/
inductive RecordStatus where
  | pending
  | new
  | verified
  | updated
  | error
deriving DecidableEq

/-- Coordinates returned by geocoding / place geometry. -/
structure Coords where
  lat : Rat
  lng : Rat
deriving DecidableEq

/-- The placeDetails sub-object of a Google Places verification result. -/
structure PlaceDetails where
  formatted_address : Option String
  business_status : Option String
  rating : Option Rat
  user_ratings_total : Option Nat
  website : Option String
  formatted_phone_number : Option String
deriving DecidableEq

/-- The untyped enrichedData payloads the workflows attach to records; each
workflow writes its own shape, so this is a sum of the shapes appearing in
the source. -/
inductive EnrichedData where
  /-- processBusinessData success path: random employeeCount/revenue/founded,
  googlePlacesData, geocoded location. -/
  | verif (employeeCount revenue founded : Nat)
      (googlePlacesData : Option PlaceDetails) (location : Option Coords)
  /-- processBusinessData per-item catch fallback: zeros only. -/
  | verifFallback (employeeCount revenue founded : Nat)
  /-- processAIProspecting prospect payload. -/
  | aiProspect (googleRating : Option Rat) (reviewCount : Option Nat)
      (businessStatus : String) (placeId : String)
  /-- processLocationProspecting payload. -/
  | nearby (rating : Option Rat) (priceLevel : Option Nat)
      (googlePlacesId : String) (location : Coords)
deriving DecidableEq

/-- A verificationData payload written onto a BusinessRecord. -/
structure VerificationData where
  verified : Bool
  confidence : Rat
  addressVerified : Bool
  currentBusinessName : String
  enrichedData : EnrichedData
deriving DecidableEq

/-- Results summaries attached to a completed job (untyped in the source;
one shape per workflow). -/
inductive JobResults where
  | verification (totalProcessed verified updated errors : Nat)
  | aiProspect (totalGenerated locationsAnalyzed existingBusinessesFiltered : Nat)
  | template (totalGenerated : Nat)
  | location (totalFound : Nat)
deriving DecidableEq

/-- A partial update to a ProcessingJob, as passed to
MemStorage.updateProcessingJob.  `none` means the key is absent from the
update object; `setsStartedAt`/`setsCompletedAt` record writes of `new Date()`. -/
structure JobWrite where
  status : Option JobStatus := none
  progress : Option Nat := none
  errorMessage : Option String := none
  setsStartedAt : Bool := false
  setsCompletedAt : Bool := false
  results : Option JobResults := none
deriving DecidableEq

/-- A record pushed by a prospecting workflow (the insert-shaped object passed
to createBusinessRecords; businessDataId elided, the workflows write to a
single batch). -/
structure NewRecord where
  companyName : Option String
  email : Option String
  phone : Option String
  website : Option String
  address : Option String
  industry : Option String
  status : RecordStatus
  verificationData : VerificationData
  originalRowIndex : Nat
  isDeleted : Bool
deriving DecidableEq

/-- A partial update to the owning BusinessData row. -/
structure DataWrite where
  status : Option String := none
  totalRecords : Option Nat := none
  processedRecords : Option Nat := none
  verifiedRecords : Option Nat := none
  errorRecords : Option Nat := none
deriving DecidableEq

/-- One storage operation performed by a workflow, in program order. -/
inductive StorageOp where
  | updateJob (w : JobWrite)
  | updateRecord (id : String) (status : RecordStatus) (data : VerificationData)
  | updateData (w : DataWrite)
  | createRecords (rs : List NewRecord)
deriving DecidableEq

/-- The ProcessingJob row as stored by MemStorage. -/
structure ProcessingJob where
  status : JobStatus
  progress : Nat
  errorMessage : Option String
  startedAt : Option Nat
  completedAt : Option Nat
deriving DecidableEq

/-- A freshly created job (createProcessingJob with status "pending",
progress 0, as the /api/process and /api/ai-prospect routes create it). -/
def newProcessingJob : ProcessingJob :=
  { status := .pending, progress := 0, errorMessage := none,
    startedAt := none, completedAt := none }

/-- MemStorage.updateProcessingJob: `{ ...existing, ...updates }` — every key
present in the update overwrites the stored value, with no guard on the
current status. -/
def applyJobWrite (now : Nat) (j : ProcessingJob) (w : JobWrite) : ProcessingJob :=
  { status := w.status.getD j.status
    progress := w.progress.getD j.progress
    errorMessage := w.errorMessage.or j.errorMessage
    startedAt := if w.setsStartedAt then some now else j.startedAt
    completedAt := if w.setsCompletedAt then some now else j.completedAt }

/-- Apply a sequence of job writes in order. -/
def applyJobWrites (now : Nat) (j : ProcessingJob) (ws : List JobWrite) : ProcessingJob :=
  ws.foldl (applyJobWrite now) j

/-- The write issued by the POST /api/job/:jobId/stop route:
`{ status: "stopped", completedAt: new Date() }`. -/
def stopEndpointWrite : JobWrite :=
  { status := some .stopped, setsCompletedAt := true }

/-- The job writes of a trace, in order. -/
def jobWrites (t : List StorageOp) : List JobWrite :=
  t.filterMap fun op => match op with
    | .updateJob w => some w
    | _ => none

/-- The progress values carried by the job writes of a trace, in order. -/
def progressWrites (t : List StorageOp) : List Nat :=
  (jobWrites t).filterMap (fun w => w.progress)

/-- The status values carried by the job writes of a trace, in order. -/
def statusWrites (t : List StorageOp) : List JobStatus :=
  (jobWrites t).filterMap (fun w => w.status)

/-! ## Verification workflow: processBusinessData (server/routes) -/

/-- Result shape of verifyAddress (google-places). -/
structure PlaceVerification where
  verified : Bool
  confidence : Rat
  addressVerified : Bool
  currentBusinessName : String
  placeDetails : Option PlaceDetails
deriving DecidableEq

/-- Outcome of the per-record external lookup (verifyAddress + geocodeAddress,
awaited inside the per-item try block): either both complete, or the awaited
call rejects. -/
inductive LookupOutcome where
  | ok (v : PlaceVerification) (coords : Option Coords)
  | throws
deriving DecidableEq

/-- A record as fetched by getBusinessRecords at the start of
processBusinessData; only the fields the loop reads. -/
structure RecInput where
  id : String
  address : Option String
deriving DecidableEq

/-- JS truthiness of an optional string field (null/undefined and "" are falsy). -/
def jsTruthy : Option String → Bool
  | some s => s ≠ ""
  | none => false

/-- External effects consumed by one verification item: the lookup outcome,
the `Math.random() > 0.8` roll choosing "updated" over "verified", and the
three random enrichment numbers. -/
structure VerifyOracles where
  lookup : String → LookupOutcome
  updatedRoll : String → Bool
  enrich : String → Nat × Nat × Nat

/-- The per-item catch fallback payload of processBusinessData. -/
def fallbackVerificationData : VerificationData :=
  { verified := false, confidence := 1/10, addressVerified := false,
    currentBusinessName := "Verification failed",
    enrichedData := .verifFallback 0 0 0 }

/-- The status and verificationData one verification item writes onto its
record (body of the batch.map closure, including its try/catch). -/
def itemResult (o : VerifyOracles) (r : RecInput) : RecordStatus × VerificationData :=
  if jsTruthy r.address then
    match o.lookup r.id with
    | .throws => (.error, fallbackVerificationData)
    | .ok v coords =>
        let e := o.enrich r.id
        let vd : VerificationData :=
          { verified := v.verified, confidence := v.confidence,
            addressVerified := v.addressVerified,
            currentBusinessName := v.currentBusinessName,
            enrichedData := .verif e.1 e.2.1 e.2.2 v.placeDetails coords }
        (if v.verified then (if o.updatedRoll r.id then .updated else .verified) else .error, vd)
  else
    let e := o.enrich r.id
    (.error,
      { verified := false, confidence := 0, addressVerified := false,
        currentBusinessName := "No address provided",
        enrichedData := .verif e.1 e.2.1 e.2.2 none none })

/-- The storage operation one verification item performs. -/
def itemWrite (o : VerifyOracles) (r : RecInput) : StorageOp :=
  .updateRecord r.id (itemResult o r).1 (itemResult o r).2

/-- The batch loop of processBusinessData, one iteration per batch index `k`
(the source loop runs `i = 10*k` for `i < N`, so `k` ranges over
`List.range ((N + 9) / 10)`): the whole batch `records.slice(i, i + 10)` is
awaited, then a single progress write
`Math.floor(Math.min(i + 10, N) / N * 100)` is issued. -/
def verifyBatchOpsGo (o : VerifyOracles) (records : List RecInput) (N : Nat) :
    List Nat → List StorageOp
  | [] => []
  | k :: ks =>
      ((records.drop (10 * k)).take 10).map (itemWrite o)
        ++ [.updateJob { progress := some (min (10 * k + 10) N * 100 / N) }]
        ++ verifyBatchOpsGo o records N ks

/-- All batch-loop operations of processBusinessData. -/
def verifyBatchOps (o : VerifyOracles) (records : List RecInput) : List StorageOp :=
  verifyBatchOpsGo o records records.length (List.range ((records.length + 9) / 10))

/-- The final completion write of processBusinessData. -/
def verifyCompletionWrite (totalRecords verifiedCount updatedCount errorCount : Nat) : JobWrite :=
  { status := some .completed, progress := some 100, setsCompletedAt := true,
    results := some (.verification totalRecords verifiedCount updatedCount errorCount) }

/-- The full storage trace of processBusinessData on its success path.  The
outer catch (status "failed") fires only when a storage call itself rejects,
which this model treats as out of scope; every per-item lookup failure is
caught inside the item and cannot reach it.  The final statistics re-fetch
returns exactly the records just written (ids are unique in the store). -/
def processBusinessDataTrace (o : VerifyOracles) (records : List RecInput) :
    List StorageOp :=
  let N := records.length
  let verifiedCount := records.countP (fun r => (itemResult o r).1 = .verified)
  let updatedCount := records.countP (fun r => (itemResult o r).1 = .updated)
  let errorCount := records.countP (fun r => (itemResult o r).1 = .error)
  let dataW : DataWrite :=
    { status := some "completed", processedRecords := some N,
      verifiedRecords := some (verifiedCount + updatedCount),
      errorRecords := some errorCount }
  [.updateJob { status := some .running, setsStartedAt := true }]
    ++ verifyBatchOps o records
    ++ [.updateData dataW,
        .updateJob (verifyCompletionWrite N verifiedCount updatedCount errorCount)]

/-! ## Retry policy: analyzeBusinessData (google-places) -/

/-- Result shape of the Gemini analysis. -/
structure LocationInsight where
  city : Option String
  state : Option String
  zipCode : Option String
deriving DecidableEq

/-- The object analyzeBusinessData resolves with. -/
structure AIAnalysis where
  patterns : List String
  recommendations : List String
  locationInsights : List LocationInsight
  stateFilter : Option String
  targetLocations : List String
deriving DecidableEq

/-- The empty result analyzeBusinessData returns when skipping or after all
attempts fail. -/
def emptyAnalysis : AIAnalysis :=
  { patterns := [], recommendations := [], locationInsights := [],
    stateFilter := none, targetLocations := [] }

/-- Outcome of one Gemini attempt: the call resolves and the response text
parses (success, carrying the parsed object), the call resolves with empty
text (the `if (rawJson)` guard falls through without error), or the call or
the JSON parse throws (caught by the attempt's catch block). -/
inductive GeminiOutcome where
  | success (a : AIAnalysis)
  | noText
  | failure
deriving DecidableEq

/-- The attempt loop of analyzeBusinessData.  `attempt` is the 1-based attempt
number, `remaining` the number of attempts still allowed
(`remaining = retries - attempt + 1` with `retries = 3`); the backoff wait of
`Math.pow(2, attempt) * 1000` ms happens in the catch block only when
`attempt < retries`, i.e. when at least one further attempt remains.  Returns
(result, backoff waits in ms in order, number of attempts made). -/
def geminiGo (oracle : Nat → GeminiOutcome) : Nat → Nat → AIAnalysis × List Nat × Nat
  | _, 0 => (emptyAnalysis, [], 0)
  | attempt, remaining + 1 =>
      match oracle attempt with
      | .success a => (a, [], 1)
      | .noText =>
          let r := geminiGo oracle (attempt + 1) remaining
          (r.1, r.2.1, r.2.2 + 1)
      | .failure =>
          let r := geminiGo oracle (attempt + 1) remaining
          (r.1, (if 0 < remaining then [2 ^ attempt * 1000] else []) ++ r.2.1, r.2.2 + 1)

/-- analyzeBusinessData: skipped entirely (empty result, no attempt) when no
GEMINI_API_KEY is configured or the input record set is empty; otherwise up
to 3 attempts with exponential backoff, returning the empty result if none
succeeds. -/
def analyzeBusinessData (α : Type) (hasApiKey : Bool) (businesses : List α)
    (oracle : Nat → GeminiOutcome) : AIAnalysis × List Nat × Nat :=
  if !hasApiKey || businesses.isEmpty then (emptyAnalysis, [], 0)
  else geminiGo oracle 1 3

/-! ## AI prospecting: processAIProspecting (server/routes) -/

/-- A source spreadsheet row as seen by processAIProspecting: the untyped
record may carry the company name under any of four keys (the code probes
`companyName || company_name || Company || name`). -/
structure SourceRow where
  companyName : Option String := none
  company_name : Option String := none
  Company : Option String := none
  name : Option String := none
deriving DecidableEq

/-- JS `||` on optional string fields: an empty string is falsy and falls
through to the right operand. -/
def jsOrStr : Option String → Option String → Option String
  | some s, b => if s = "" then b else some s
  | none, b => b

/-- The company-name probe `record.companyName || record.company_name ||
record.Company || record.name`. -/
def rawCompanyName (r : SourceRow) : Option String :=
  jsOrStr r.companyName (jsOrStr r.company_name (jsOrStr r.Company r.name))

/-- Drop whitespace from both ends of a character list. -/
def trimChars (l : List Char) : List Char :=
  ((l.dropWhile Char.isWhitespace).reverse.dropWhile Char.isWhitespace).reverse

/-- Name normalization used by the dedup index:
`.toString().toLowerCase().trim()`, expressed over the string's character
list (the standard library's String.toLower and String.trim compute the same
ASCII lowering and whitespace trimming but are opaque to kernel reduction). -/
def normalizeName (s : String) : String :=
  String.mk (trimChars (s.data.map Char.toLower))

/-- The dedup index: the normalized company names of the source record set
(a JS Set; only membership and size are observable, so a list with possible
duplicates models it, with `dedup` for the size). -/
def existingNames (src : List SourceRow) : List String :=
  src.foldl
    (fun acc r =>
      match rawCompanyName r with
      | some s => if s = "" then acc else acc ++ [normalizeName s]
      | none => acc)
    []

/-- A business returned by searchBusinessesByType (google-places). -/
structure FoundBusiness where
  companyName : String
  address : Option String
  phone : Option String
  website : Option String
  rating : Option Rat
  reviewCount : Option Nat
  businessStatus : String
  placeId : String
deriving DecidableEq

/-- Outcome of the per-city searchBusinessesByType call (the per-city
try/catch swallows a rejection and moves on to the progress update). -/
inductive SearchOutcome where
  | ok (found : List FoundBusiness)
  | throws
deriving DecidableEq

/-- The prospect record pushed for one surviving search result (status "new",
confidence 0.9, Google enrichment fields, originalRowIndex = position in the
prospects array at push time). -/
def aiProspectOf (businessType : String) (idx : Nat) (b : FoundBusiness) : NewRecord :=
  { companyName := some b.companyName, email := none, phone := b.phone,
    website := b.website, address := b.address, industry := some businessType,
    status := .new,
    verificationData :=
      { verified := true, confidence := 9/10, addressVerified := true,
        currentBusinessName := b.companyName,
        enrichedData := .aiProspect b.rating b.reviewCount b.businessStatus b.placeId },
    originalRowIndex := idx, isDeleted := false }

/-- The inner `for (const business of foundBusinesses)` loop of one city:
a candidate whose normalized name is already in the dedup index is skipped,
every other candidate is appended to the prospects array. -/
def cityFilter (existing : List String) (businessType : String)
    (found : List FoundBusiness) (acc : List NewRecord) : List NewRecord :=
  found.foldl
    (fun acc b =>
      if existing.contains (normalizeName b.companyName) then acc
      else acc ++ [aiProspectOf businessType acc.length b])
    acc

/-- The per-city loop of processAIProspecting: for city number `cityIndex`
(0-based) the search runs (its rejection is caught and ignored), survivors
are pushed, and a single progress write
`Math.floor((cityIndex + 1) / totalCities * 100)` is issued.  Returns the
operations of the loop and the final prospects array. -/
def aiCityLoop (search : String → SearchOutcome) (existing : List String)
    (businessType : String) (totalCities : Nat) :
    List String → Nat → List NewRecord → List StorageOp × List NewRecord
  | [], _, acc => ([], acc)
  | city :: rest, cityIndex, acc =>
      let acc' := match search city with
        | .throws => acc
        | .ok found => cityFilter existing businessType found acc
      let r := aiCityLoop search existing businessType totalCities rest (cityIndex + 1) acc'
      (StorageOp.updateJob { progress := some ((cityIndex + 1) * 100 / totalCities) } :: r.1,
       r.2)

/-- The message of the error thrown when Gemini returns no target locations. -/
def noCitiesMsg : String :=
  "Gemini AI could not find valid cities in your uploaded spreadsheet. Please ensure your spreadsheet contains address or location information."

/-- The request options of processAIProspecting (`prospectData`); `none` and
`some 0` / `some ""` are both falsy under `||`. -/
structure AIProspectOptions where
  businessType : Option String := none
  numberOfResults : Option Nat := none
deriving DecidableEq

/-- processAIProspecting, given the already-computed Gemini insights: the
trace of storage operations and the prospects array it persists.  When the
insights carry no target locations the body throws and the catch block
records the failure; otherwise each target city is searched, survivors of
the dedup index are collected, and the job completes with progress 100.
`search` abstracts searchBusinessesByType for the fixed businessType and
per-city quota `Math.ceil(numberOfResults / numLocations)`. -/
def processAIProspecting (src : List SourceRow) (insights : AIAnalysis)
    (opts : AIProspectOptions) (search : String → SearchOutcome) :
    List StorageOp × List NewRecord :=
  let existing := existingNames src
  let runW : StorageOp := .updateJob { status := some .running, setsStartedAt := true }
  if insights.targetLocations.isEmpty then
    ([runW,
      .updateJob { status := some .failed, errorMessage := some noCitiesMsg,
                   setsCompletedAt := true }],
     [])
  else
    let businessType := (jsOrStr opts.businessType (some "businesses")).getD "businesses"
    let C := insights.targetLocations.length
    let r := aiCityLoop search existing businessType C insights.targetLocations 0 []
    let prospects := r.2
    let dataW : DataWrite :=
      { status := some "completed", processedRecords := some prospects.length,
        verifiedRecords := some prospects.length, errorRecords := some 0 }
    ([runW] ++ r.1
      ++ [.createRecords prospects,
          .updateData dataW,
          .updateJob { status := some .completed, progress := some 100,
                       setsCompletedAt := true,
                       results := some (.aiProspect prospects.length C
                         (existingNames src).dedup.length) }],
     prospects)

/-! ## Template prospecting: processProspecting (server/routes)

Only the job writes are embedded: the fabricated prospect records are built
from `Math.random()` draws and are persisted in one `createBusinessRecords`
call after the loop; the loop itself performs no storage operation except the
conditional progress writes. -/

/-- The progress writes of the generation loop of processProspecting: at index
`i` (0-based, `numberOfResults` iterations) a write of
`Math.floor((i + 1) / numberOfResults * 100)` is issued when
`(i + 1) % 25 == 0 || i == numberOfResults - 1`. -/
def templateLoopWrites (num : Nat) : List JobWrite :=
  (List.range num).filterMap fun i =>
    if (i + 1) % 25 = 0 ∨ i = num - 1 then
      some { progress := some ((i + 1) * 100 / num) }
    else none

/-- All job writes of processProspecting, in order. -/
def templateJobWrites (num : Nat) : List JobWrite :=
  [{ status := some .running, setsStartedAt := true }]
    ++ templateLoopWrites num
    ++ [{ status := some .completed, progress := some 100, setsCompletedAt := true,
          results := some (.template num) }]

/-! ## Location prospecting: processLocationProspecting (location-processing) -/

/-- A business returned by searchNearbyBusinesses (which never rejects: its
own catch returns mock data). `geometry` is optional in the raw Places
payload; a missing geometry makes the record-mapping step throw. -/
structure NearbyBusiness where
  name : String
  address : Option String
  phone : Option String
  website : Option String
  rating : Option Rat
  priceLevel : Option Nat
  types : List String
  geometry : Option Coords
  placeId : String
  businessStatus : String
deriving DecidableEq

/-- The record built from one nearby business (status "verified", confidence
`rating / 5` when the rating is truthy, else 0.7). -/
def nearbyRecordOf (idx : Nat) (b : NearbyBusiness) (g : Coords) : NewRecord :=
  { companyName := some b.name, email := none, phone := b.phone,
    website := b.website, address := b.address,
    industry := some (let t := String.intercalate ", " b.types
                      if t = "" then "Business" else t),
    status := .verified,
    verificationData :=
      { verified := true,
        confidence := match b.rating with
          | some r => if r = 0 then 7/10 else r / 5
          | none => 7/10,
        addressVerified := true, currentBusinessName := b.name,
        enrichedData := .nearby b.rating b.priceLevel b.placeId g },
    originalRowIndex := idx, isDeleted := false }

/-- The storage trace of processLocationProspecting: progress 20 with status
"running", the nearby search, progress 80, then either the mapped records and
completion at progress 100, or — when some business lacks a geometry and the
mapping throws a TypeError with message `tyErrMsg` — the catch block's failed
write. -/
def processLocationProspectingTrace (found : List NearbyBusiness)
    (tyErrMsg : String) : List StorageOp :=
  let w1 : StorageOp := .updateJob { status := some .running, progress := some 20 }
  let w2 : StorageOp := .updateJob { progress := some 80 }
  if found.all (fun b => b.geometry.isSome) then
    let recs := found.enum.map (fun p => nearbyRecordOf p.1 p.2 (p.2.geometry.getD ⟨0, 0⟩))
    let dataW : DataWrite :=
      { status := some "completed", totalRecords := some found.length,
        processedRecords := some found.length,
        verifiedRecords := some found.length, errorRecords := some 0 }
    [w1, w2, .createRecords recs, .updateData dataW,
     .updateJob { status := some .completed, progress := some 100,
                  setsCompletedAt := true, results := some (.location found.length) }]
  else
    [w1, w2,
     .updateJob { status := some .failed, errorMessage := some tyErrMsg,
                  setsCompletedAt := true }]

/-! ## Record store: MemStorage (server/storage) -/

/-- A BusinessRecord row as stored by MemStorage. -/
structure StoredRecord where
  id : String
  businessDataId : String
  companyName : Option String
  email : Option String
  phone : Option String
  website : Option String
  address : Option String
  industry : Option String
  status : RecordStatus
  verificationData : Option VerificationData
  originalRowIndex : Nat
  isDeleted : Bool
  createdAt : Nat
  updatedAt : Nat
deriving DecidableEq

/-- A BusinessData row as stored by MemStorage (raw/mapped row payloads are
opaque and elided). -/
structure StoredBusinessData where
  id : String
  fileName : String
  status : String
  totalRecords : Nat
  processedRecords : Nat
  verifiedRecords : Nat
  errorRecords : Nat
  createdAt : Nat
  updatedAt : Nat
deriving DecidableEq

/-- Lookup in a JS Map modelled as an association list in insertion order. -/
def mapGet {α : Type} : List (String × α) → String → Option α
  | [], _ => none
  | (k, v) :: m, key => if k = key then some v else mapGet m key

/-- Map.set: replace the entry when the key is present, else append. -/
def mapSet {α : Type} (m : List (String × α)) (key : String) (v : α) :
    List (String × α) :=
  if (mapGet m key).isSome then
    m.map (fun p => if p.1 = key then (key, v) else p)
  else m ++ [(key, v)]

/-- The partial update shape passed to MemStorage.updateBusinessRecord (only
the keys the server writes). -/
structure RecordUpdate where
  status : Option RecordStatus := none
  verificationData : Option (Option VerificationData) := none
  isDeleted : Option Bool := none
deriving DecidableEq

/-- `{ ...existing, ...updates, updatedAt: new Date() }`. -/
def applyRecordUpdate (now : Nat) (r : StoredRecord) (u : RecordUpdate) : StoredRecord :=
  { r with
    status := u.status.getD r.status
    verificationData := u.verificationData.getD r.verificationData
    isDeleted := u.isDeleted.getD r.isDeleted
    updatedAt := now }

/-- The two MemStorage maps the record-level claims touch. -/
structure Mem where
  businessData : List (String × StoredBusinessData)
  businessRecords : List (String × StoredRecord)
deriving DecidableEq

/-- MemStorage.getBusinessData. -/
def memGetBusinessData (s : Mem) (id : String) : Option StoredBusinessData :=
  mapGet s.businessData id

/-- MemStorage.getBusinessRecords: all stored values owned by the batch with
the soft-deleted ones filtered out. -/
def memGetBusinessRecords (s : Mem) (businessDataId : String) : List StoredRecord :=
  (s.businessRecords.map Prod.snd).filter
    (fun r => r.businessDataId = businessDataId ∧ r.isDeleted = false)

/-- MemStorage.updateBusinessRecord: not-found returns undefined and leaves
the store unchanged; otherwise the merged record is stored and returned. -/
def memUpdateBusinessRecord (s : Mem) (id : String) (u : RecordUpdate) (now : Nat) :
    Option StoredRecord × Mem :=
  match mapGet s.businessRecords id with
  | none => (none, s)
  | some r =>
      let r' := applyRecordUpdate now r u
      (some r', { s with businessRecords := mapSet s.businessRecords id r' })

/-- MemStorage.deleteBusinessRecord: a soft delete via
updateBusinessRecord(id, { isDeleted: true }). -/
def memDeleteBusinessRecord (s : Mem) (id : String) (now : Nat) : Bool × Mem :=
  match mapGet s.businessRecords id with
  | none => (false, s)
  | some _ => (true, (memUpdateBusinessRecord s id { isDeleted := some true } now).2)

/-! ## Trace bookkeeping lemmas -/

lemma jobWrites_append (a b : List StorageOp) :
    jobWrites (a ++ b) = jobWrites a ++ jobWrites b := by
  simp [jobWrites]

lemma progressWrites_append (a b : List StorageOp) :
    progressWrites (a ++ b) = progressWrites a ++ progressWrites b := by
  simp [progressWrites, jobWrites]

lemma statusWrites_append (a b : List StorageOp) :
    statusWrites (a ++ b) = statusWrites a ++ statusWrites b := by
  simp [statusWrites, jobWrites]

lemma jobWrites_map_itemWrite (o : VerifyOracles) (l : List RecInput) :
    jobWrites (l.map (itemWrite o)) = [] := by
  induction l with
  | nil => rfl
  | cons r l ih => simp [jobWrites, itemWrite, List.filterMap_cons] at ih ⊢

lemma progressWrites_map_itemWrite (o : VerifyOracles) (l : List RecInput) :
    progressWrites (l.map (itemWrite o)) = [] := by
  simp [progressWrites, jobWrites_map_itemWrite]

lemma statusWrites_map_itemWrite (o : VerifyOracles) (l : List RecInput) :
    statusWrites (l.map (itemWrite o)) = [] := by
  simp [statusWrites, jobWrites_map_itemWrite]

lemma verifyBatchOpsGo_cons (o : VerifyOracles) (records : List RecInput)
    (N k : Nat) (ks : List Nat) :
    verifyBatchOpsGo o records N (k :: ks)
      = (((records.drop (10 * k)).take 10).map (itemWrite o)
          ++ [.updateJob { progress := some (min (10 * k + 10) N * 100 / N) }])
        ++ verifyBatchOpsGo o records N ks := by
  simp [verifyBatchOpsGo, List.append_assoc]

lemma progressWrites_verifyBatchOpsGo (o : VerifyOracles) (records : List RecInput)
    (N : Nat) (ks : List Nat) :
    progressWrites (verifyBatchOpsGo o records N ks)
      = ks.map (fun k => min (10 * k + 10) N * 100 / N) := by
  induction ks with
  | nil => rfl
  | cons k ks ih =>
      rw [verifyBatchOpsGo_cons, progressWrites_append, progressWrites_append,
        progressWrites_map_itemWrite, ih]
      rfl

lemma statusWrites_verifyBatchOpsGo (o : VerifyOracles) (records : List RecInput)
    (N : Nat) (ks : List Nat) :
    statusWrites (verifyBatchOpsGo o records N ks) = [] := by
  induction ks with
  | nil => rfl
  | cons k ks ih =>
      rw [verifyBatchOpsGo_cons, statusWrites_append, statusWrites_append,
        statusWrites_map_itemWrite, ih]
      rfl

lemma mul_hundred_div_le_100 {m N : Nat} (h : m ≤ N) : m * 100 / N ≤ 100 := by
  rcases Nat.eq_zero_or_pos N with hN | hN
  · subst hN
    simp [Nat.le_zero.mp h]
  · calc m * 100 / N ≤ N * 100 / N := by gcongr
      _ = 100 := Nat.mul_div_cancel_left 100 hN

lemma batchProgress_le_100 (N k : Nat) : min (10 * k + 10) N * 100 / N ≤ 100 :=
  mul_hundred_div_le_100 (min_le_right _ _)

lemma chain'_le_map_range {v : Nat → Nat} (hv : ∀ a b : Nat, a ≤ b → v a ≤ v b)
    (M : Nat) : List.Chain' (fun a b => a ≤ b) ((List.range M).map v) :=
  List.Pairwise.chain' ((List.pairwise_lt_range M).map v (fun a b hab => hv a b hab.le))

lemma progressWrites_processBusinessDataTrace (o : VerifyOracles) (records : List RecInput) :
    progressWrites (processBusinessDataTrace o records)
      = (List.range ((records.length + 9) / 10)).map
          (fun k => min (10 * k + 10) records.length * 100 / records.length)
        ++ [100] := by
  have hb := progressWrites_verifyBatchOpsGo o records records.length
    (List.range ((records.length + 9) / 10))
  simp only [processBusinessDataTrace, verifyBatchOps] at *
  simp [progressWrites, jobWrites, List.filterMap_append, verifyCompletionWrite] at hb ⊢
  exact hb

lemma statusWrites_processBusinessDataTrace (o : VerifyOracles) (records : List RecInput) :
    statusWrites (processBusinessDataTrace o records) = [.running, .completed] := by
  have hb := statusWrites_verifyBatchOpsGo o records records.length
    (List.range ((records.length + 9) / 10))
  simp only [processBusinessDataTrace, verifyBatchOps] at *
  simp [statusWrites, jobWrites, List.filterMap_append, verifyCompletionWrite] at hb ⊢
  exact hb

/-- The progress values the per-city loop of processAIProspecting writes,
starting at city index `k`, for a remaining count of cities. -/
def cityProgressList (C : Nat) : Nat → Nat → List Nat
  | 0, _ => []
  | len + 1, k => ((k + 1) * 100 / C) :: cityProgressList C len (k + 1)

lemma aiCityLoop_progress (search : String → SearchOutcome) (ex : List String)
    (bt : String) (C : Nat) :
    ∀ (cities : List String) (k : Nat) (acc : List NewRecord),
      progressWrites ((aiCityLoop search ex bt C cities k acc).1)
        = cityProgressList C cities.length k := by
  intro cities
  induction cities with
  | nil => intro k acc; rfl
  | cons c rest ih =>
      intro k acc
      simp only [aiCityLoop]
      cases hs : search c with
      | throws =>
          simp [progressWrites, jobWrites, List.filterMap_cons, cityProgressList]
          have := ih (k + 1) acc
          simp [progressWrites, jobWrites] at this
          exact this
      | ok found =>
          simp [progressWrites, jobWrites, List.filterMap_cons, cityProgressList]
          have := ih (k + 1) (cityFilter ex bt found acc)
          simp [progressWrites, jobWrites] at this
          exact this

lemma cityProgressList_chain (C : Nat) :
    ∀ (len k : Nat), k + len ≤ C →
      List.Chain' (fun a b => a ≤ b) (cityProgressList C len k)
        ∧ ∀ x ∈ cityProgressList C len k, x ≤ 100 := by
  intro len
  induction len with
  | zero => intro k h; simp [cityProgressList]
  | succ len ih =>
      intro k h
      obtain ⟨ihc, ihb⟩ := ih (k + 1) (by omega)
      constructor
      · refine List.chain'_cons'.mpr ⟨?_, ihc⟩
        intro y hy
        cases len with
        | zero => simp [cityProgressList] at hy
        | succ len2 =>
            simp [cityProgressList] at hy
            subst hy
            gcongr
            omega
      · intro x hx
        simp [cityProgressList] at hx
        rcases hx with hx | hx
        · subst hx
          exact mul_hundred_div_le_100 (by omega)
        · exact ihb x hx

lemma templateLoopWrites_progress (num : Nat) :
    (templateLoopWrites num).filterMap (fun w => w.progress)
      = ((List.range num).filter
          (fun i => decide ((i + 1) % 25 = 0 ∨ i = num - 1))).map
          (fun i => (i + 1) * 100 / num) := by
  rw [templateLoopWrites]
  induction (List.range num) with
  | nil => rfl
  | cons a l ih =>
      by_cases h : (a + 1) % 25 = 0 ∨ a = num - 1 <;>
        simp [List.filterMap_cons, List.filter_cons, h, ih]

/-! ## Concrete fixtures for witnesses and evaluations -/

/-- A fixed successful verifyAddress result. -/
def sampleVerification : PlaceVerification :=
  { verified := true, confidence := 85/100, addressVerified := true,
    currentBusinessName := "Metro Business Center", placeDetails := none }

/-- Oracles under which every lookup succeeds deterministically. -/
def okOracles : VerifyOracles :=
  { lookup := fun _ => .ok sampleVerification (some ⟨34, -118⟩),
    updatedRoll := fun _ => false,
    enrich := fun _ => (10, 100000, 1990) }

/-- n records with distinct ids and a non-empty address. -/
def mkRecs (n : Nat) : List RecInput :=
  (List.range n).map (fun k => { id := toString k, address := some "1 Main St" })

/-- The 23-record input of the progress-granularity scenario. -/
def recs23 : List RecInput := mkRecs 23

/-- A 12-record input: two batches of size 10 and 2. -/
def recs12 : List RecInput := mkRecs 12

/-! ## Claim theorems -/

/-- C4: the verification workflow partitions the N fetched records into batches
of fixed size 10 (batch k is `records.slice(10k, 10k+10)`, awaited whole before
the progress write), persists progress `floor(min(processed, N) / N * 100)`
after each batch, and for N = 23 produces exactly three progress updates 43,
86 (approximately 87), 100 — not one per record. -/
theorem batch_progress_granularity :
    (∀ (o : VerifyOracles) (records : List RecInput),
        progressWrites (verifyBatchOps o records)
          = (List.range ((records.length + 9) / 10)).map
              (fun k => min (10 * k + 10) records.length * 100 / records.length))
  ∧ (∀ (o : VerifyOracles) (records : List RecInput), records.length = 23 →
        progressWrites (verifyBatchOps o records) = [43, 86, 100]
        ∧ (progressWrites (verifyBatchOps o records)).length = 3
        ∧ (List.range ((23 + 9) / 10)).map
            (fun k => ((records.drop (10 * k)).take 10).length) = [10, 10, 3])
  ∧ (min 10 23 * 100 / 23 = 43 ∧ min 20 23 * 100 / 23 = 86
      ∧ min 30 23 * 100 / 23 = 100 ∧ (3 : Nat) ≠ 23) := by
  refine ⟨?_, ?_, by decide⟩
  · intro o records
    rw [verifyBatchOps, progressWrites_verifyBatchOpsGo]
  · intro o records h
    refine ⟨?_, ?_, ?_⟩
    · rw [verifyBatchOps, progressWrites_verifyBatchOpsGo, h]
      decide
    · rw [verifyBatchOps, progressWrites_verifyBatchOpsGo, h]
      decide
    · simp [List.length_take, List.length_drop, h]
      decide

/-- Witness for C4 at the concrete 23-record input. -/
theorem batch_progress_granularity_witness :
    progressWrites (verifyBatchOps okOracles recs23) = [43, 86, 100] :=
  (batch_progress_granularity.2.1 okOracles recs23 (by decide)).1

/-- C5: in every workflow variant — verification, template prospecting,
ai-prospecting and location-prospecting — the sequence of progress values
written to the job is monotonically non-decreasing, so a poller reading the
job sees non-decreasing progress until a terminal status is reached. -/
theorem progress_monotone :
    (∀ (o : VerifyOracles) (records : List RecInput),
        List.Chain' (fun a b => a ≤ b)
          (progressWrites (processBusinessDataTrace o records)))
  ∧ (∀ num : Nat,
        List.Chain' (fun a b => a ≤ b)
          ((templateJobWrites num).filterMap (fun w => w.progress)))
  ∧ (∀ (src : List SourceRow) (insights : AIAnalysis) (opts : AIProspectOptions)
        (search : String → SearchOutcome),
        List.Chain' (fun a b => a ≤ b)
          (progressWrites (processAIProspecting src insights opts search).1))
  ∧ (∀ (found : List NearbyBusiness) (msg : String),
        List.Chain' (fun a b => a ≤ b)
          (progressWrites (processLocationProspectingTrace found msg))) := by
  refine ⟨?_, ?_, ?_, ?_⟩
  · intro o records
    rw [progressWrites_processBusinessDataTrace]
    refine List.Chain'.append ?_ (List.chain'_singleton 100) ?_
    · refine chain'_le_map_range ?_ _
      intro a b hab
      gcongr
    · intro x hx y hy
      simp at hy
      subst hy
      have hx' := List.mem_of_mem_getLast? hx
      obtain ⟨k, _, hk⟩ := List.mem_map.mp hx'
      exact hk ▸ batchProgress_le_100 _ _
  · intro num
    have hsplit : (templateJobWrites num).filterMap (fun w => w.progress)
        = (templateLoopWrites num).filterMap (fun w => w.progress) ++ [100] := by
      simp [templateJobWrites, List.filterMap_append, List.filterMap_cons]
    rw [hsplit, templateLoopWrites_progress]
    refine List.Chain'.append ?_ (List.chain'_singleton 100) ?_
    · refine List.Pairwise.chain' ?_
      refine List.Pairwise.map _ ?_ (((List.pairwise_lt_range num).filter _))
      intro a b hab
      gcongr
    · intro x hx y hy
      simp at hy
      subst hy
      have hx' := List.mem_of_mem_getLast? hx
      obtain ⟨i, hi, hk⟩ := List.mem_map.mp hx'
      have : i < num := List.mem_range.mp (List.mem_of_mem_filter hi)
      exact hk ▸ mul_hundred_div_le_100 (by omega)
  · intro src insights opts search
    by_cases he : insights.targetLocations.isEmpty
    · simp [processAIProspecting, he, progressWrites, jobWrites, List.filterMap_cons]
    · have hlen : insights.targetLocations.length = insights.targetLocations.length := rfl
      simp only [processAIProspecting, he, if_neg, Bool.false_eq_true, if_false]
      have hloop := aiCityLoop_progress search (existingNames src)
        ((jsOrStr opts.businessType (some "businesses")).getD "businesses")
        insights.targetLocations.length insights.targetLocations 0 []
      obtain ⟨hc, hb⟩ := cityProgressList_chain insights.targetLocations.length
        insights.targetLocations.length 0 (by omega)
      rw [progressWrites_append, progressWrites_append]
      have h1 : progressWrites
          [StorageOp.updateJob { status := some .running, setsStartedAt := true }] = [] := rfl
      rw [h1, hloop]
      have h2 : progressWrites
          [StorageOp.createRecords
              (aiCityLoop search (existingNames src)
                ((jsOrStr opts.businessType (some "businesses")).getD "businesses")
                insights.targetLocations.length insights.targetLocations 0 []).2,
            StorageOp.updateData
              { status := some "completed",
                processedRecords := some (aiCityLoop search (existingNames src)
                  ((jsOrStr opts.businessType (some "businesses")).getD "businesses")
                  insights.targetLocations.length insights.targetLocations 0 []).2.length,
                verifiedRecords := some (aiCityLoop search (existingNames src)
                  ((jsOrStr opts.businessType (some "businesses")).getD "businesses")
                  insights.targetLocations.length insights.targetLocations 0 []).2.length,
                errorRecords := some 0 },
            StorageOp.updateJob
              { status := some .completed, progress := some 100, setsCompletedAt := true,
                results := some (.aiProspect (aiCityLoop search (existingNames src)
                    ((jsOrStr opts.businessType (some "businesses")).getD "businesses")
                    insights.targetLocations.length insights.targetLocations 0 []).2.length
                  insights.targetLocations.length (existingNames src).dedup.length) }]
          = [100] := rfl
      rw [h2]
      simp only [List.nil_append]
      refine List.Chain'.append hc (List.chain'_singleton 100) ?_
      intro x hx y hy
      simp at hy
      subst hy
      exact hb x (List.mem_of_mem_getLast? hx)
  · intro found msg
    by_cases hall : found.all (fun b => b.geometry.isSome)
    · simp only [processLocationProspectingTrace, hall, if_true]
      simp [progressWrites, jobWrites, List.filterMap_cons]
    · simp only [processLocationProspectingTrace, hall, Bool.false_eq_true, if_false]
      simp [progressWrites, jobWrites, List.filterMap_cons]

lemma geminiGo_attempts_le (oracle : Nat → GeminiOutcome) :
    ∀ (remaining attempt : Nat), (geminiGo oracle attempt remaining).2.2 ≤ remaining := by
  intro remaining
  induction remaining with
  | zero => intro attempt; simp [geminiGo]
  | succ n ih =>
      intro attempt
      simp only [geminiGo]
      cases hoa : oracle attempt with
      | success a => simp
      | noText => have := ih (attempt + 1); simp; omega
      | failure => have := ih (attempt + 1); simp; omega

/-- A non-empty Gemini payload for the retry scenarios. -/
def sampleAnalysis : AIAnalysis :=
  { patterns := ["addresses concentrated in one metro"],
    recommendations := ["prospect nearby"], locationInsights := [],
    stateFilter := some "CA", targetLocations := ["Los Angeles, CA"] }

/-- An attempt oracle that fails twice and succeeds on the third attempt. -/
def failTwiceOracle : Nat → GeminiOutcome :=
  fun k => if k = 3 then .success sampleAnalysis else .failure

/-- C3: analyzeBusinessData invokes the Gemini call at most 3 times, returns
the empty shape immediately with no attempt when no API key is configured or
the input is empty, waits 2s then 4s after the first and second failing
attempts (and not after the third), returns the third attempt's payload when
the first two fail, and returns the empty shape instead of an error when all
three fail.  Waits are in milliseconds. -/
theorem gemini_retry_policy :
    ∀ (α : Type) (hasKey : Bool) (bs : List α) (oracle : Nat → GeminiOutcome),
      (analyzeBusinessData α hasKey bs oracle).2.2 ≤ 3
    ∧ ((hasKey = false ∨ bs = []) →
        analyzeBusinessData α hasKey bs oracle = (emptyAnalysis, [], 0))
    ∧ (hasKey = true → bs ≠ [] → oracle 1 = .failure → oracle 2 = .failure →
        ((∀ a, oracle 3 = .success a →
            analyzeBusinessData α hasKey bs oracle = (a, [2000, 4000], 3))
          ∧ (oracle 3 = .failure →
            analyzeBusinessData α hasKey bs oracle
              = (emptyAnalysis, [2000, 4000], 3)))) := by
  intro α hasKey bs oracle
  refine ⟨?_, ?_, ?_⟩
  · unfold analyzeBusinessData
    split
    · simp
    · exact geminiGo_attempts_le oracle 3 1
  · rintro (h | h) <;> simp [analyzeBusinessData, h]
  · intro hk hbs h1 h2
    have hne : bs.isEmpty = false := by
      cases bs with
      | nil => exact absurd rfl hbs
      | cons a l => rfl
    constructor
    · intro a h3
      simp [analyzeBusinessData, hk, hne, geminiGo, h1, h2, h3]
    · intro h3
      simp [analyzeBusinessData, hk, hne, geminiGo, h1, h2, h3]

/-- Witness for C3: the fail-fail-succeed oracle returns the successful
payload with 2s and 4s backoffs and exactly 3 attempts, and the no-key /
empty-input short circuit makes no attempt. -/
theorem gemini_retry_policy_witness :
    analyzeBusinessData Nat true [0] failTwiceOracle = (sampleAnalysis, [2000, 4000], 3)
    ∧ analyzeBusinessData Nat false ([] : List Nat) failTwiceOracle
        = (emptyAnalysis, [], 0) :=
  ⟨((gemini_retry_policy Nat true [0] failTwiceOracle).2.2 rfl (by decide) rfl rfl).1
      sampleAnalysis rfl,
   (gemini_retry_policy Nat false [] failTwiceOracle).2.1 (Or.inl rfl)⟩

lemma mem_slice_cover :
    ∀ (n : Nat) (records : List RecInput) (r : RecInput), records.length ≤ n →
      r ∈ records →
      ∃ k, k < (records.length + 9) / 10 ∧ r ∈ (records.drop (10 * k)).take 10 := by
  intro n
  induction n with
  | zero =>
      intro records r hlen hr
      have h0 : records = [] := List.length_eq_zero.mp (Nat.le_zero.mp hlen)
      subst h0
      simp at hr
  | succ n ih =>
      intro records r hlen hr
      by_cases h10 : r ∈ records.take 10
      · refine ⟨0, ?_, by simpa using h10⟩
        have hne : records ≠ [] := List.ne_nil_of_mem hr
        have hpos : 0 < records.length := List.length_pos.mpr hne
        omega
      · have hr' : r ∈ records.drop 10 := by
          have hsplit : r ∈ records.take 10 ++ records.drop 10 := by
            rw [List.take_append_drop]
            exact hr
          rcases List.mem_append.mp hsplit with h | h
          · exact absurd h h10
          · exact h
        have hlen' : (records.drop 10).length ≤ n := by
          simp [List.length_drop]
          omega
        obtain ⟨k', hk', hmem⟩ := ih (records.drop 10) r hlen' hr'
        have hL : 10 < records.length := by
          have hne : records.drop 10 ≠ [] := List.ne_nil_of_mem hr'
          have := List.length_pos.mpr hne
          simp [List.length_drop] at this
          omega
        refine ⟨k' + 1, ?_, ?_⟩
        · simp [List.length_drop] at hk'
          omega
        · rw [List.drop_drop] at hmem
          have e : 10 * (k' + 1) = 10 + 10 * k' := by ring
          rw [e]
          exact hmem

lemma mem_verifyBatchOpsGo_of (o : VerifyOracles) (records : List RecInput)
    (N : Nat) {x : StorageOp} :
    ∀ (ks : List Nat) (k : Nat), k ∈ ks →
      x ∈ ((records.drop (10 * k)).take 10).map (itemWrite o) →
      x ∈ verifyBatchOpsGo o records N ks := by
  intro ks
  induction ks with
  | nil => intro k hk hx; simp at hk
  | cons k' ks ih =>
      intro k hk hx
      rw [verifyBatchOpsGo_cons]
      rcases List.mem_cons.mp hk with h | h
      · subst h
        exact List.mem_append.mpr (Or.inl (List.mem_append.mpr (Or.inl hx)))
      · exact List.mem_append.mpr (Or.inr (ih k h hx))

lemma itemWrite_mem_trace (o : VerifyOracles) (records : List RecInput)
    {r : RecInput} (hr : r ∈ records) :
    itemWrite o r ∈ processBusinessDataTrace o records := by
  obtain ⟨k, hk, hmem⟩ := mem_slice_cover records.length records r le_rfl hr
  have hx : itemWrite o r ∈ ((records.drop (10 * k)).take 10).map (itemWrite o) :=
    List.mem_map_of_mem _ hmem
  have hbatch : itemWrite o r ∈ verifyBatchOps o records := by
    rw [verifyBatchOps]
    exact mem_verifyBatchOpsGo_of o records records.length _ k (List.mem_range.mpr hk) hx
  simp only [processBusinessDataTrace, List.mem_append]
  tauto

/-- C6: in the verification workflow, a record whose external lookup rejects
is caught inside the item: the record is written with status "error" and the
fallback verification payload, and the job still ends with the completed
status write — the only status writes of the whole trace are "running" then
"completed", so the item failure never aborts the batch or fails the job. -/
theorem item_failure_swallowed :
    ∀ (o : VerifyOracles) (records : List RecInput) (r : RecInput),
      r ∈ records → jsTruthy r.address = true → o.lookup r.id = .throws →
      StorageOp.updateRecord r.id .error fallbackVerificationData
          ∈ processBusinessDataTrace o records
        ∧ statusWrites (processBusinessDataTrace o records) = [.running, .completed] := by
  intro o records r hr haddr hthrow
  refine ⟨?_, statusWrites_processBusinessDataTrace o records⟩
  have hiw : itemWrite o r = .updateRecord r.id .error fallbackVerificationData := by
    simp [itemWrite, itemResult, haddr, hthrow]
  exact hiw ▸ itemWrite_mem_trace o records hr

/-- A record whose lookup always rejects. -/
def throwRec : RecInput := { id := "r1", address := some "500 Oak St" }

/-- Oracles whose lookup always rejects. -/
def throwOracles : VerifyOracles :=
  { lookup := fun _ => .throws, updatedRoll := fun _ => false,
    enrich := fun _ => (0, 0, 0) }

/-- Witness for C6 at a one-record input whose lookup rejects. -/
theorem item_failure_swallowed_witness :
    StorageOp.updateRecord "r1" .error fallbackVerificationData
        ∈ processBusinessDataTrace throwOracles [throwRec]
      ∧ statusWrites (processBusinessDataTrace throwOracles [throwRec])
        = [.running, .completed] :=
  item_failure_swallowed throwOracles [throwRec] throwRec (by decide) rfl rfl

/-- C7: an ai-prospecting job whose AI location extraction yields zero target
locations throws before any city is searched; the catch block ends the job
failed with the explicit no-cities message (whose text contains "could not
find valid cities"), so the job neither completes, nor continues with
fallback locations, nor surfaces an unhandled exception. -/
theorem ai_no_cities_fails :
    ∀ (src : List SourceRow) (insights : AIAnalysis) (opts : AIProspectOptions)
      (search : String → SearchOutcome) (now : Nat),
      insights.targetLocations = [] →
      (processAIProspecting src insights opts search).1
          = [.updateJob { status := some .running, setsStartedAt := true },
             .updateJob { status := some .failed, errorMessage := some noCitiesMsg,
                          setsCompletedAt := true }]
        ∧ (applyJobWrites now newProcessingJob
            (jobWrites (processAIProspecting src insights opts search).1)).status
          = .failed
        ∧ (applyJobWrites now newProcessingJob
            (jobWrites (processAIProspecting src insights opts search).1)).errorMessage
          = some noCitiesMsg
        ∧ ("could not find valid cities".data <:+: noCitiesMsg.data) := by
  intro src insights opts search now h
  have he : insights.targetLocations.isEmpty = true := by simp [h]
  have htrace : (processAIProspecting src insights opts search).1
      = [.updateJob { status := some .running, setsStartedAt := true },
         .updateJob { status := some .failed, errorMessage := some noCitiesMsg,
                      setsCompletedAt := true }] := by
    simp [processAIProspecting, he]
  refine ⟨htrace, ?_, ?_, by decide⟩
  · rw [htrace]
    simp [jobWrites, List.filterMap_cons, applyJobWrites, applyJobWrite]
  · rw [htrace]
    simp [jobWrites, List.filterMap_cons, applyJobWrites, applyJobWrite, newProcessingJob]

/-- Witness for C7 with the empty insights object. -/
theorem ai_no_cities_fails_witness :
    (applyJobWrites 0 newProcessingJob
        (jobWrites (processAIProspecting [] emptyAnalysis {} (fun _ => .ok [])).1)).status
      = .failed
    ∧ (applyJobWrites 0 newProcessingJob
        (jobWrites (processAIProspecting [] emptyAnalysis {} (fun _ => .ok [])).1)).errorMessage
      = some noCitiesMsg :=
  ⟨(ai_no_cities_fails [] emptyAnalysis {} (fun _ => .ok []) 0 rfl).2.1,
   (ai_no_cities_fails [] emptyAnalysis {} (fun _ => .ok []) 0 rfl).2.2.1⟩

lemma cityFilter_cons (ex : List String) (bt : String) (b : FoundBusiness)
    (found : List FoundBusiness) (acc : List NewRecord) :
    cityFilter ex bt (b :: found) acc
      = cityFilter ex bt found
          (if ex.contains (normalizeName b.companyName) then acc
           else acc ++ [aiProspectOf bt acc.length b]) := rfl

lemma cityFilter_not_existing (ex : List String) (bt : String) :
    ∀ (found : List FoundBusiness) (acc : List NewRecord),
      (∀ p ∈ acc, ∀ s, p.companyName = some s →
          ex.contains (normalizeName s) = false) →
      ∀ p ∈ cityFilter ex bt found acc,
        ∀ s, p.companyName = some s → ex.contains (normalizeName s) = false := by
  intro found
  induction found with
  | nil => intro acc hacc; exact hacc
  | cons b found ih =>
      intro acc hacc
      rw [cityFilter_cons]
      by_cases hb : ex.contains (normalizeName b.companyName) = true
      · rw [if_pos hb]
        exact ih acc hacc
      · rw [if_neg hb]
        refine ih _ ?_
        intro p hp s hs
        rcases List.mem_append.mp hp with h | h
        · exact hacc p h s hs
        · have hpb : p = aiProspectOf bt acc.length b := by simpa using h
          subst hpb
          have hsb : b.companyName = s := by
            simpa [aiProspectOf] using hs
          subst hsb
          exact (Bool.not_eq_true _) ▸ hb

lemma aiCityLoop_not_existing (search : String → SearchOutcome) (ex : List String)
    (bt : String) (C : Nat) :
    ∀ (cities : List String) (k : Nat) (acc : List NewRecord),
      (∀ p ∈ acc, ∀ s, p.companyName = some s →
          ex.contains (normalizeName s) = false) →
      ∀ p ∈ (aiCityLoop search ex bt C cities k acc).2,
        ∀ s, p.companyName = some s → ex.contains (normalizeName s) = false := by
  intro cities
  induction cities with
  | nil => intro k acc hacc; exact hacc
  | cons c rest ih =>
      intro k acc hacc
      simp only [aiCityLoop]
      cases hs : search c with
      | throws => exact ih (k + 1) acc hacc
      | ok found => exact ih (k + 1) _ (cityFilter_not_existing ex bt found acc hacc)

/-- The source set containing "Acme Corp". -/
def acmeSrc : List SourceRow := [{ companyName := some "Acme Corp" }]

/-- A genuinely new search candidate. -/
def freshBiz : FoundBusiness :=
  { companyName := "Fresh Dental", address := some "12 Elm St, Dallas, TX",
    phone := some "555-0100", website := none, rating := some (9/2),
    reviewCount := some 120, businessStatus := "OPERATIONAL", placeId := "pl_fresh" }

/-- The case/trailing-space variant of the existing source business. -/
def acmeVariant : FoundBusiness :=
  { companyName := "ACME CORP ", address := none, phone := none, website := none,
    rating := none, reviewCount := none, businessStatus := "OPERATIONAL",
    placeId := "pl_acme" }

/-- Insights targeting a single city. -/
def acmeInsights : AIAnalysis :=
  { patterns := [], recommendations := [], locationInsights := [],
    stateFilter := none, targetLocations := ["Dallas, TX"] }

/-- Search returning both the fresh candidate and the Acme variant. -/
def acmeSearch : String → SearchOutcome := fun _ => .ok [freshBiz, acmeVariant]

/-- C8: the dedup index is the set of normalized (lowercased, trimmed) source
company names, and every search candidate whose normalized name is in it is
discarded before persistence; in particular, with "Acme Corp" in the source,
the returned candidate "ACME CORP " is excluded and only the fresh candidate
is persisted. -/
theorem dedup_excludes_existing_names :
    (∀ (src : List SourceRow) (insights : AIAnalysis) (opts : AIProspectOptions)
        (search : String → SearchOutcome) (p : NewRecord),
        p ∈ (processAIProspecting src insights opts search).2 →
        ∀ s, p.companyName = some s →
          (existingNames src).contains (normalizeName s) = false)
  ∧ (∀ p ∈ (processAIProspecting acmeSrc acmeInsights {} acmeSearch).2,
        p.companyName ≠ some "ACME CORP ")
  ∧ (existingNames acmeSrc).contains (normalizeName "ACME CORP ") = true
  ∧ (processAIProspecting acmeSrc acmeInsights {} acmeSearch).2
      = [aiProspectOf "businesses" 0 freshBiz] := by
  refine ⟨?_, by decide, by decide, rfl⟩
  intro src insights opts search p hp s hs
  by_cases he : insights.targetLocations.isEmpty
  · simp [processAIProspecting, he] at hp
  · simp only [processAIProspecting, he, Bool.false_eq_true, if_false] at hp
    exact aiCityLoop_not_existing _ _ _ _ insights.targetLocations 0 [] (by simp) p hp s hs

/-- Witness for C8: the persisted fresh candidate's normalized name is indeed
outside the dedup index. -/
theorem dedup_excludes_existing_names_witness :
    (existingNames acmeSrc).contains (normalizeName "Fresh Dental") = false :=
  dedup_excludes_existing_names.1 acmeSrc acmeInsights {} acmeSearch
    (aiProspectOf "businesses" 0 freshBiz)
    (by
      rw [show (processAIProspecting acmeSrc acmeInsights {} acmeSearch).2
          = [aiProspectOf "businesses" 0 freshBiz] from rfl]
      exact List.mem_singleton_self _)
    "Fresh Dental" rfl

/-- The same new business returned in two different target cities. -/
def dupBiz : FoundBusiness :=
  { companyName := "Dup Biz", address := some "9 Pine St", phone := none,
    website := none, rating := none, reviewCount := none,
    businessStatus := "OPERATIONAL", placeId := "pl_dup" }

/-- Insights targeting two cities. -/
def twoCityInsights : AIAnalysis :=
  { patterns := [], recommendations := [], locationInsights := [],
    stateFilter := none, targetLocations := ["Springfield, IL", "Madison, WI"] }

/-- Search returning the same business in every city. -/
def dupSearch : String → SearchOutcome := fun _ => .ok [dupBiz]

/-- C10: the dedup index is never extended with the prospects collected during
the job — candidates are only checked against the source names — so when two
cities each return the same new business, both copies are persisted as
separate records (originalRowIndex 0 and 1). -/
theorem dedup_index_not_extended :
    ((processAIProspecting acmeSrc twoCityInsights {} dupSearch).2).length = 2
    ∧ ((processAIProspecting acmeSrc twoCityInsights {} dupSearch).2).map
        (fun p => p.companyName) = [some "Dup Biz", some "Dup Biz"]
    ∧ ((processAIProspecting acmeSrc twoCityInsights {} dupSearch).2).map
        (fun p => p.originalRowIndex) = [0, 1] := by
  decide

lemma mapGet_none_ne {α : Type} :
    ∀ (m : List (String × α)) (key : String), mapGet m key = none →
      ∀ p ∈ m, p.1 ≠ key := by
  intro m key
  induction m with
  | nil => intro _ p hp; simp at hp
  | cons q m ih =>
      intro h p hp
      rw [mapGet] at h
      by_cases hq : q.1 = key
      · rw [if_pos hq] at h
        exact absurd h (by simp)
      · rw [if_neg hq] at h
        rcases List.mem_cons.mp hp with rfl | hp
        · exact hq
        · exact ih h p hp

lemma mapGet_map_replace {α : Type} (key : String) (v : α) :
    ∀ (m : List (String × α)), (mapGet m key).isSome →
      mapGet (m.map (fun p => if p.1 = key then (key, v) else p)) key = some v := by
  intro m
  induction m with
  | nil => intro h; simp [mapGet] at h
  | cons q m ih =>
      intro h
      by_cases hq : q.1 = key
      · simp only [List.map_cons, if_pos hq]
        rw [mapGet, if_pos rfl]
      · simp only [List.map_cons, if_neg hq]
        rw [mapGet, if_neg hq]
        rw [mapGet, if_neg hq] at h
        exact ih h

lemma mapGet_mapSet_self {α : Type} (m : List (String × α)) (key : String) (v : α)
    (h : (mapGet m key).isSome) : mapGet (mapSet m key v) key = some v := by
  rw [mapSet, if_pos h]
  exact mapGet_map_replace key v m h

lemma mem_mapSet {α : Type} {m : List (String × α)} {key : String} {v : α}
    {q : String × α} (hq : q ∈ mapSet m key v) :
    q = (key, v) ∨ (q ∈ m ∧ q.1 ≠ key) := by
  rw [mapSet] at hq
  split at hq
  · obtain ⟨p, hp, hpq⟩ := List.mem_map.mp hq
    by_cases hpk : p.1 = key
    · left
      rw [← hpq, if_pos hpk]
    · right
      rw [← hpq, if_neg hpk]
      exact ⟨hp, hpk⟩
  · rename_i hcond
    rcases List.mem_append.mp hq with h | h
    · right
      refine ⟨h, ?_⟩
      have hnone : mapGet m key = none := by
        rcases ho : mapGet m key with _ | w
        · rfl
        · simp [ho] at hcond
      exact mapGet_none_ne m key hnone q h
    · left
      simpa using h

/-- C9: deleting a business record is a soft delete.  Given a stored record
(and the store invariant that every entry is keyed by its record's id, which
MemStorage maintains by always calling `set(record.id, record)`):
deleteBusinessRecord succeeds, the record's data stays in the map with only
isDeleted and updatedAt changed, a later updateBusinessRecord still finds it
by id, every record visible through getBusinessRecords has a different id,
and the owning batch row — in particular its totalRecords — is untouched. -/
theorem soft_delete_semantics :
    ∀ (s : Mem) (id : String) (r : StoredRecord) (now : Nat),
      mapGet s.businessRecords id = some r →
      (∀ p ∈ s.businessRecords, (p.2).id = p.1) →
      (memDeleteBusinessRecord s id now).1 = true
      ∧ mapGet (memDeleteBusinessRecord s id now).2.businessRecords id
          = some { r with isDeleted := true, updatedAt := now }
      ∧ (∀ (u : RecordUpdate) (now2 : Nat),
          ((memUpdateBusinessRecord (memDeleteBusinessRecord s id now).2 id u now2).1).isSome)
      ∧ (∀ (b : String), ∀ rec ∈ memGetBusinessRecords (memDeleteBusinessRecord s id now).2 b,
          rec.id ≠ id)
      ∧ (∀ b : String,
          memGetBusinessData (memDeleteBusinessRecord s id now).2 b
            = memGetBusinessData s b) := by
  intro s id r now hget hwf
  have happly : applyRecordUpdate now r { isDeleted := some true }
      = { r with isDeleted := true, updatedAt := now } := rfl
  have hstore : (memDeleteBusinessRecord s id now).2
      = { s with businessRecords :=
            mapSet s.businessRecords id (applyRecordUpdate now r { isDeleted := some true }) } := by
    rw [memDeleteBusinessRecord, hget]
    simp [memUpdateBusinessRecord, hget]
  have hget' : mapGet (memDeleteBusinessRecord s id now).2.businessRecords id
      = some { r with isDeleted := true, updatedAt := now } := by
    rw [hstore]
    show mapGet (mapSet s.businessRecords id
        (applyRecordUpdate now r { isDeleted := some true })) id
      = some { r with isDeleted := true, updatedAt := now }
    rw [mapGet_mapSet_self _ _ _ (by simp [hget]), happly]
  refine ⟨?_, hget', ?_, ?_, ?_⟩
  · simp [memDeleteBusinessRecord, hget]
  · intro u now2
    rw [memUpdateBusinessRecord, hget']
    rfl
  · intro b rec hrec
    rw [memGetBusinessRecords] at hrec
    obtain ⟨hmem, hpred⟩ := List.mem_filter.mp hrec
    obtain ⟨p, hp, hpr⟩ := List.mem_map.mp hmem
    rw [hstore] at hp
    rcases mem_mapSet hp with h | ⟨hpm, hpk⟩
    · exfalso
      rw [h] at hpr
      have : rec.isDeleted = true := by
        rw [← hpr]
        rfl
      simp [this] at hpred
    · intro hrid
      apply hpk
      rw [← hpr] at hrid
      rw [hwf p hpm] at hrid
      exact hrid
  · intro b
    rw [hstore]
    rfl

/-- A concrete one-batch, one-record store for the C9 witness. -/
def witnessBatch : StoredBusinessData :=
  { id := "b1", fileName := "upload.xlsx", status := "completed",
    totalRecords := 5, processedRecords := 5, verifiedRecords := 4,
    errorRecords := 1, createdAt := 0, updatedAt := 0 }

/-- The record soft-deleted in the C9 witness. -/
def witnessRecord : StoredRecord :=
  { id := "r1", businessDataId := "b1", companyName := some "Acme Corp",
    email := none, phone := none, website := none, address := some "1 Main St",
    industry := none, status := .verified, verificationData := none,
    originalRowIndex := 0, isDeleted := false, createdAt := 0, updatedAt := 0 }

/-- The C9 witness store. -/
def witnessStore : Mem :=
  { businessData := [("b1", witnessBatch)],
    businessRecords := [("r1", witnessRecord)] }

/-- Witness for C9 on the concrete store: delete succeeds, the record is still
addressable by id with its data intact, and the owning batch row (hence
totalRecords) is unchanged. -/
theorem soft_delete_semantics_witness :
    (memDeleteBusinessRecord witnessStore "r1" 9).1 = true
    ∧ mapGet (memDeleteBusinessRecord witnessStore "r1" 9).2.businessRecords "r1"
        = some { witnessRecord with isDeleted := true, updatedAt := 9 }
    ∧ memGetBusinessData (memDeleteBusinessRecord witnessStore "r1" 9).2 "b1"
        = memGetBusinessData witnessStore "b1" :=
  ⟨(soft_delete_semantics witnessStore "r1" witnessRecord 9 (by decide) (by decide)).1,
   (soft_delete_semantics witnessStore "r1" witnessRecord 9 (by decide) (by decide)).2.1,
   (soft_delete_semantics witnessStore "r1" witnessRecord 9 (by decide) (by decide)).2.2.2.2 "b1"⟩

/-- Number of per-record writes in a trace. -/
def countRecordWrites (t : List StorageOp) : Nat :=
  t.countP fun op => match op with
    | .updateRecord _ _ _ => true
    | _ => false

/-- C1 (evaluation of the code at the failing input): the batch loop of
processBusinessData never reads the job's status, so for a 12-record job (two
batches) whose job-write sequence has the stop endpoint's write interleaved
right after the first batch's progress write — i.e. stop is requested between
batches — the second batch's records are still written (all 12 record writes
occur) and the final status write overwrites "stopped" with "completed": the
job ends completed, with no early exit.  This contradicts the claimed
check-before-next-batch behaviour. -/
theorem stop_flag_ignored_between_batches :
    (applyJobWrites 7 newProcessingJob
        ((jobWrites (processBusinessDataTrace okOracles recs12)).take 2
          ++ [stopEndpointWrite]
          ++ (jobWrites (processBusinessDataTrace okOracles recs12)).drop 2)).status
      = .completed
    ∧ countRecordWrites (processBusinessDataTrace okOracles recs12) = 12
    ∧ statusWrites (processBusinessDataTrace okOracles recs12)
        = [.running, .completed]
    ∧ (jobWrites (processBusinessDataTrace okOracles recs12)).length = 4 := by
  refine ⟨by decide, by decide, by decide, by decide⟩

/-- A job that has already reached the terminal status "completed". -/
def completedJob : ProcessingJob :=
  { status := .completed, progress := 100, errorMessage := none,
    startedAt := some 1, completedAt := some 2 }

/-- A job that has already reached the terminal status "stopped". -/
def stoppedJob : ProcessingJob :=
  { status := .stopped, progress := 50, errorMessage := none,
    startedAt := some 1, completedAt := some 2 }

/-- Counterexample to C2 as stated: a job whose status is the terminal
"completed" has its status changed to "stopped" by a subsequent operation
(the stop endpoint's updateProcessingJob write) — no in-flight-batch race is
involved, the store merge simply has no terminal-status guard. -/
theorem terminal_status_change_cex :
    completedJob.status = .completed
    ∧ (applyJobWrite 3 completedJob stopEndpointWrite).status = .stopped
    ∧ JobStatus.stopped ≠ JobStatus.completed := by
  decide

/-- C2 amended: MemStorage.updateProcessingJob applies any partial update
unconditionally, so a terminal status is not protected: for every job in a
terminal status, the stop endpoint's write changes its status to "stopped"
and the orchestrator's completion write changes its status to "completed". -/
theorem terminal_status_unguarded :
    ∀ (now : Nat) (j : ProcessingJob),
      (j.status = .completed ∨ j.status = .failed ∨ j.status = .stopped) →
      (applyJobWrite now j stopEndpointWrite).status = .stopped
      ∧ ∀ (N v u e : Nat),
          (applyJobWrite now j (verifyCompletionWrite N v u e)).status = .completed := by
  intro now j h
  exact ⟨rfl, fun N v u e => rfl⟩

/-- Witness for the amended C2 at concrete terminal jobs. -/
theorem terminal_status_unguarded_witness :
    (applyJobWrite 3 completedJob stopEndpointWrite).status = .stopped
    ∧ (applyJobWrite 3 stoppedJob (verifyCompletionWrite 12 9 1 2)).status = .completed :=
  ⟨(terminal_status_unguarded 3 completedJob (Or.inl rfl)).1,
   (terminal_status_unguarded 3 stoppedJob (Or.inr (Or.inr rfl))).2 12 9 1 2⟩

end BusVer
